import Mathlib

/-!
# LC-3 virtual machine: a shallow embedding

This development embeds the LC-3 emulator of `src/unnamed/part_000`
(whose loader also appears verbatim in `src/VirtualMachine/lc3_vm.cpp`)
into Lean 4 and settles the claims about it.

Machine words are 16-bit unsigned integers, modelled as `Nat` with an
explicit `% 65536` wherever the C code truncates (assignment to a
`uint16_t` array cell, register, or function parameter).  The global
arrays `memory` and `registers` are threaded explicitly as functions
`Nat → Nat`.  Host keyboard input is modelled as a `List Nat` of pending
characters: `check_keypress` (a zero-timeout `select` on stdin) is
"the list is nonempty", and `getchar` consumes the head (an exhausted
stream yields 0xFFFF, the `uint16_t` image of EOF = -1).  Character
output written with `putc` is collected in a list; the `cout`
diagnostic prints (load banner, per-cycle opcode trace) are not part of
the character-output model.
-/

namespace LC3

/-- Register file indices, from the `Register` enum: R0..R7 are 0..7. -/
def R_R0 : Nat := 0

/-- R7, the linkage register. -/
def R_R7 : Nat := 7

/-- Index of the program counter in the register array. -/
def R_PC : Nat := 8

/-- Index of the condition-flag register in the register array. -/
def R_COND : Nat := 9

/-- Keyboard status register address (`MR_KBSR`). -/
def MR_KBSR : Nat := 0xFE00

/-- Keyboard data register address (`MR_KBDR`). -/
def MR_KBDR : Nat := 0xFE02

/-- Condition flag `FL_POS`. -/
def FL_POS : Nat := 1

/-- Condition flag `FL_ZRO`. -/
def FL_ZRO : Nat := 2

/-- Condition flag `FL_NEG`. -/
def FL_NEG : Nat := 4

/-- Source `swap_byte_layout16`: `(val << 8) | (val >> 8)` on a `uint16_t`. -/
def swap_byte_layout16 (val : Nat) : Nat :=
  (((val % 65536) <<< 8) % 65536) ||| ((val % 65536) >>> 8)

/-- Source `sign_extend_bits(bit_count, value)` exactly as written.  Note the source line is `value |= (0xFFFF < bit_count);` — a
comparison, whose `int` value (0 or 1) is OR-ed in — not a shift. -/
def sign_extend_bits (bit_count value : Nat) : Nat :=
  if (value >>> (bit_count - 1)) &&& 1 = 1 then
    value ||| (if 65535 < bit_count then 1 else 0)
  else
    value

/-- Modelled from the spec: the sign-extension primitive the spec
describes ("reproduces bit (n-1) into bits (n)..15"), i.e. what line
123 of the source would compute with `<<` in place of `<`.  Used only
to state what the claims expect of `sign_extend_bits`. -/
def spec_sext (bit_count value : Nat) : Nat :=
  if (value >>> (bit_count - 1)) &&& 1 = 1 then
    (value ||| ((65535 <<< bit_count) % 65536)) % 65536
  else
    value % 65536

/-- Assignment to a cell of the `uint16_t` register array:
`registers[r] = v` (both index and value as the C code produces them;
the value is truncated to 16 bits by the element type of the array). -/
def setReg (regs : Nat → Nat) (r v : Nat) : Nat → Nat :=
  fun i => if i = r then v % 65536 else regs i

/-- Condition flag computed from a register value, the if-chain of
`update_cond_flag`: zero → `FL_ZRO`, bit 15 set → `FL_NEG`,
otherwise `FL_POS`. -/
def cond_flag_of (value : Nat) : Nat :=
  if value = 0 then FL_ZRO
  else if value >>> 15 ≠ 0 then FL_NEG
  else FL_POS

/-- Source `update_cond_flag(reg)`: read `registers[reg]` and store the flag
into `registers[R_COND]`. -/
def update_cond_flag (regs : Nat → Nat) (reg : Nat) : Nat → Nat :=
  setReg regs R_COND (cond_flag_of (regs reg))

/-- Source `memory_write(data, address)`: unconditional store into the
`uint16_t` memory array (both parameters are `uint16_t`, so each is
truncated to 16 bits at the call). -/
def memory_write (mem : Nat → Nat) (data address : Nat) : Nat → Nat :=
  fun a => if a = address % 65536 then data % 65536 else mem a

/-- Source `check_keypress()`: zero-timeout readiness poll of stdin, nonzero
iff a key is pending. -/
def check_keypress (input : List Nat) : Bool :=
  !input.isEmpty

/-- Source `getchar()`: consume the next pending character; an exhausted
stream yields EOF = -1, which is 0xFFFF as a `uint16_t`. -/
def getchar (input : List Nat) : Nat × List Nat :=
  (input.headD 0xFFFF, input.tail)

/-- Source `memory_read(address)`: on `MR_KBSR` first poll the keyboard,
setting KBSR/KBDR, then return `memory[address]`.  Returns the value
read, the updated memory, and the remaining input stream. -/
def memory_read (mem : Nat → Nat) (input : List Nat) (address : Nat) :
    Nat × (Nat → Nat) × List Nat :=
  if address % 65536 = MR_KBSR then
    if check_keypress input then
      let g := getchar input
      let mem1 := memory_write mem (1 <<< 15) MR_KBSR
      let mem2 := memory_write mem1 g.1 MR_KBDR
      (mem2 (address % 65536), mem2, g.2)
    else
      let mem1 := memory_write mem 0 MR_KBSR
      (mem1 (address % 65536), mem1, input)
  else
    (mem (address % 65536), mem, input)

/-- The whole VM state: the two global `uint16_t` arrays, the pending
stdin characters, the characters written with `putc`, the loop flag
`run` of `main`, and whether `abort()` was reached. -/
structure VMState where
  memory : Nat → Nat
  registers : Nat → Nat
  input : List Nat
  charOutput : List Nat
  run : Bool
  aborted : Bool

/-- Case `OP_BR`: branch by the raw 9-bit offset (through the broken
`sign_extend_bits`) when `nzp & registers[R_COND]` is nonzero. -/
def execBR (instr : Nat) (s : VMState) : VMState :=
  let nzp := (instr >>> 9) &&& 0x7
  let pc_offset := instr &&& 0x1FF
  if nzp &&& s.registers R_COND ≠ 0 then
    let regs1 := setReg s.registers R_PC (s.registers R_PC + sign_extend_bits 9 pc_offset)
    { s with registers := regs1 }
  else s

/-- Case `OP_ADD`. -/
def execADD (instr : Nat) (s : VMState) : VMState :=
  let imm_mode := (instr >>> 5) &&& 0x1
  let dr := (instr >>> 9) &&& 0x7
  let sr1 := (instr >>> 6) &&& 0x7
  let regs1 :=
    if imm_mode = 1 then
      setReg s.registers dr (s.registers sr1 + sign_extend_bits 5 (instr &&& 0x1F))
    else
      setReg s.registers dr (s.registers sr1 + s.registers (instr &&& 0x7))
  { s with registers := update_cond_flag regs1 dr }

/-- Case `OP_AND`. -/
def execAND (instr : Nat) (s : VMState) : VMState :=
  let imm_mode := (instr >>> 5) &&& 0x1
  let dr := (instr >>> 9) &&& 0x7
  let sr1 := (instr >>> 6) &&& 0x7
  let regs1 :=
    if imm_mode = 1 then
      setReg s.registers dr (s.registers sr1 &&& sign_extend_bits 5 (instr &&& 0x1F))
    else
      setReg s.registers dr (s.registers sr1 &&& s.registers (instr &&& 0x7))
  { s with registers := update_cond_flag regs1 dr }

/-- Case `OP_JMP`: the source decodes the base register with
`(instruction >> 5) & 0x7`, i.e. from bits 7..5. -/
def execJMP (instr : Nat) (s : VMState) : VMState :=
  let base_reg := (instr >>> 5) &&& 0x7
  { s with registers := setReg s.registers R_PC (s.registers base_reg) }

/-- Case `OP_JSR`: save the (post-increment) PC into R7, then either
add the 11-bit offset (JSR) or jump to the base register (JSRR). -/
def execJSR (instr : Nat) (s : VMState) : VMState :=
  let regs1 := setReg s.registers R_R7 (s.registers R_PC)
  let flag := (instr >>> 11) &&& 0x1
  let regs2 :=
    if flag = 1 then
      setReg regs1 R_PC (regs1 R_PC + sign_extend_bits 11 (instr &&& 0x7FF))
    else
      setReg regs1 R_PC (regs1 ((instr >>> 6) &&& 0x7))
  { s with registers := regs2 }

/-- Case `OP_LD`. -/
def execLD (instr : Nat) (s : VMState) : VMState :=
  let dr := (instr >>> 9) &&& 0x7
  let pc_offset := sign_extend_bits 9 (instr &&& 0x1FF)
  let r := memory_read s.memory s.input (s.registers R_PC + pc_offset)
  let regs1 := setReg s.registers dr r.1
  { s with memory := r.2.1, input := r.2.2,
           registers := update_cond_flag regs1 dr }

/-- Case `OP_LDI`: two chained reads through `memory_read`. -/
def execLDI (instr : Nat) (s : VMState) : VMState :=
  let dr := (instr >>> 9) &&& 0x7
  let pc_offset := sign_extend_bits 9 (instr &&& 0x1FF)
  let r1 := memory_read s.memory s.input (s.registers R_PC + pc_offset)
  let r2 := memory_read r1.2.1 r1.2.2 r1.1
  let regs1 := setReg s.registers dr r2.1
  { s with memory := r2.2.1, input := r2.2.2,
           registers := update_cond_flag regs1 dr }

/-- Case `OP_LDR`. -/
def execLDR (instr : Nat) (s : VMState) : VMState :=
  let dr := (instr >>> 9) &&& 0x7
  let base_r := (instr >>> 6) &&& 0x7
  let offset := sign_extend_bits 6 (instr &&& 0x3F)
  let r := memory_read s.memory s.input (s.registers base_r + offset)
  let regs1 := setReg s.registers dr r.1
  { s with memory := r.2.1, input := r.2.2,
           registers := update_cond_flag regs1 dr }

/-- Case `OP_LEA`. -/
def execLEA (instr : Nat) (s : VMState) : VMState :=
  let dr := (instr >>> 9) &&& 0x7
  let pc_offset := sign_extend_bits 9 (instr &&& 0x1FF)
  let regs1 := setReg s.registers dr (s.registers R_PC + pc_offset)
  { s with registers := update_cond_flag regs1 dr }

/-- Case `OP_NOT`: `~registers[sr]` assigned to a `uint16_t` is the
16-bit complement, i.e. XOR with 0xFFFF. -/
def execNOT (instr : Nat) (s : VMState) : VMState :=
  let dr := (instr >>> 9) &&& 0x7
  let sr := (instr >>> 6) &&& 0x7
  let regs1 := setReg s.registers dr ((s.registers sr % 65536) ^^^ 0xFFFF)
  { s with registers := update_cond_flag regs1 dr }

/-- Case `OP_RES`: the body is an empty `break` (the comment speaks of
an illegal-opcode exception, but nothing is thrown). -/
def execRES (_instr : Nat) (s : VMState) : VMState := s

/-- Case `OP_RTI`: the body is an empty `break`. -/
def execRTI (_instr : Nat) (s : VMState) : VMState := s

/-- Case `OP_ST`. -/
def execST (instr : Nat) (s : VMState) : VMState :=
  let sr := (instr >>> 9) &&& 0x7
  let pc_offset := sign_extend_bits 9 (instr &&& 0x1FF)
  let mem1 := memory_write s.memory (s.registers sr) (s.registers R_PC + pc_offset)
  { s with memory := mem1 }

/-- Case `OP_STI`: read the outer cell, then store through it. -/
def execSTI (instr : Nat) (s : VMState) : VMState :=
  let sr := (instr >>> 9) &&& 0x7
  let pc_offset := sign_extend_bits 9 (instr &&& 0x1FF)
  let r := memory_read s.memory s.input (s.registers R_PC + pc_offset)
  { s with memory := memory_write r.2.1 (s.registers sr) r.1,
           input := r.2.2 }

/-- Case `OP_STR`: the source decodes the source register with
`(instruction >> 8) & 0x7`, i.e. from bits 10..8. -/
def execSTR (instr : Nat) (s : VMState) : VMState :=
  let sr := (instr >>> 8) &&& 0x7
  let base_r := (instr >>> 6) &&& 0x7
  let offset := sign_extend_bits 6 (instr &&& 0x3F)
  let mem1 := memory_write s.memory (s.registers sr) (s.registers base_r + offset)
  { s with memory := mem1 }

/-- The trap vector as the source computes it: `instruction & 0x1FF`
(nine bits, although the comment above that line says "last 8 bits"). -/
def trap_code_of (instr : Nat) : Nat := instr &&& 0x1FF

/-- Output of `TRAP_PUTS`: the characters written by the
`while (*str_ptr) putc(...)` scan.  The C scan is an unbounded pointer
walk; it is modelled with fuel 65536, one unit per cell visited. -/
def puts_chars (mem : Nat → Nat) : Nat → Nat → List Nat
  | _, 0 => []
  | addr, fuel + 1 =>
    if mem addr % 65536 = 0 then []
    else (mem addr % 256) :: puts_chars mem (addr + 1) fuel

/-- Case `OP_TRAP`: save PC into R7, then dispatch on the 9-bit
`trap_code`.  The `TRAP_IN`, `TRAP_PUTSP` and `TRAP_HALT` cases and the
`default` case are all empty `break`s in the source: in particular HALT
does not clear `run` and emits nothing. -/
def execTRAP (instr : Nat) (s : VMState) : VMState :=
  let regs1 := setReg s.registers R_R7 (s.registers R_PC)
  let tc := trap_code_of instr
  if tc = 0x20 then -- TRAP_GETC
    let g := getchar s.input
    let regs2 := setReg regs1 R_R0 g.1
    { s with registers := update_cond_flag regs2 R_R0, input := g.2 }
  else if tc = 0x21 then -- TRAP_OUT
    { s with registers := regs1,
             charOutput := s.charOutput ++ [regs1 R_R0 % 256] }
  else if tc = 0x22 then -- TRAP_PUTS
    { s with registers := regs1,
             charOutput := s.charOutput ++ puts_chars s.memory (regs1 R_R0) 65536 }
  else if tc = 0x23 then -- TRAP_IN: empty case
    { s with registers := regs1 }
  else if tc = 0x24 then -- TRAP_PUTSP: empty case
    { s with registers := regs1 }
  else if tc = 0x25 then -- TRAP_HALT: empty case, run is NOT cleared
    { s with registers := regs1 }
  else -- default: empty case
    { s with registers := regs1 }

/-- The `switch (opcode)` dispatch of `main`, cases in source order.
The `default` case calls `abort()`, modelled by stopping the loop with
the `aborted` marker; it is unreachable since the 4-bit opcode matches
one of the 16 labelled cases. -/
def execute (instr : Nat) (s : VMState) : VMState :=
  let opcode := instr >>> 12
  if opcode = 1 then execADD instr s
  else if opcode = 5 then execAND instr s
  else if opcode = 0 then execBR instr s
  else if opcode = 12 then execJMP instr s
  else if opcode = 4 then execJSR instr s
  else if opcode = 2 then execLD instr s
  else if opcode = 10 then execLDI instr s
  else if opcode = 6 then execLDR instr s
  else if opcode = 14 then execLEA instr s
  else if opcode = 9 then execNOT instr s
  else if opcode = 13 then execRES instr s
  else if opcode = 8 then execRTI instr s
  else if opcode = 3 then execST instr s
  else if opcode = 11 then execSTI instr s
  else if opcode = 7 then execSTR instr s
  else if opcode = 15 then execTRAP instr s
  else { s with run := false, aborted := true }

/-- Fetch: `memory_read(registers[R_PC]++)` — read the instruction at
the old PC, then increment PC (with `uint16_t` wrap).  Returns the
fetched word and the post-fetch state. -/
def fetch (s : VMState) : Nat × VMState :=
  let r := memory_read s.memory s.input (s.registers R_PC)
  (r.1,
   { s with memory := r.2.1, input := r.2.2,
            registers := setReg s.registers R_PC (s.registers R_PC + 1) })

/-- One iteration of the fetch/decode/execute loop body. -/
def step (s : VMState) : VMState :=
  execute (fetch s).1 (fetch s).2

/-- One pass of `while (run) { ... }`: the body runs only while `run`
holds and `abort()` has not fired. -/
def loop_step (s : VMState) : VMState :=
  if s.run && !s.aborted then step s else s

/-- Iterated passes of the interpreter loop. -/
def stepN : Nat → VMState → VMState
  | 0, s => s
  | n + 1, s => stepN n (loop_step s)

/-- The state of `main` just before the loop: globals are
zero-initialized except for the loaded image, `R_COND = FL_ZRO`,
`R_PC = 0x3000`, `run = true`. -/
def initState (mem : Nat → Nat) (input : List Nat) : VMState :=
  { memory := mem
  , registers := fun i => if i = R_COND then FL_ZRO else if i = R_PC then 0x3000 else 0
  , input := input
  , charOutput := []
  , run := true
  , aborted := false }

/-- A little-endian host reading consecutive byte pairs into
`uint16_t` cells with `fread`: each pair (low byte first) becomes one
word; a trailing odd byte yields no complete item. -/
def pairsLE : List Nat → List Nat
  | b0 :: b1 :: rest => ((b0 % 256) + 256 * (b1 % 256)) :: pairsLE rest
  | _ => []

/-- Store a list of words into consecutive memory cells from `addr`. -/
def placeWords (mem : Nat → Nat) (addr : Nat) : List Nat → Nat → Nat
  | [] => mem
  | w :: ws => placeWords (memory_write mem w addr) (addr + 1) ws

/-- The byte-swap loop of `read_image_file`: swap the first `n` cells
starting at `addr`. -/
def swapRange (mem : Nat → Nat) (addr : Nat) : Nat → Nat → Nat
  | 0 => mem
  | n + 1 => swapRange (memory_write mem (swap_byte_layout16 (mem addr)) addr) (addr + 1) n

/-- Source `read_image_file` on a little-endian host, over the byte
stream of the image.  `fread(&origin, 2, 1, file)` stores the first two bytes into a
`uint16_t` in host (little-endian) order — no byte swap; with fewer
than two bytes the read fails and `origin` stays 0 with nothing loaded.
Then at most `MEMORY_MAX - origin` words are read into memory from
`origin`, and the first `lines_read` cells are byte-swapped, where
`lines_read` is the `fread` count truncated to `uint16_t`. -/
def read_image_file (mem : Nat → Nat) (bytes : List Nat) : Nat → Nat :=
  match bytes with
  | b0 :: b1 :: rest =>
    let origin := (b0 % 256) + 256 * (b1 % 256)
    let max_lines := 65536 - origin
    let words := (pairsLE rest).take max_lines
    let lines_read := words.length % 65536
    swapRange (placeWords mem origin words) origin lines_read
  | _ => mem

/-- The all-zero memory the `memory` global starts with. -/
def zeroMem : Nat → Nat := fun _ => 0

/-- Memory holding the single instruction word `w` at 0x3000 and zero
elsewhere. -/
def singleInstrMem (w : Nat) : Nat → Nat :=
  fun a => if a = 0x3000 then w % 65536 else 0

/-- The VM started (with no pending input) on an image consisting of
the single instruction word `w` at 0x3000. -/
def singleInstrState (w : Nat) : VMState :=
  initState (singleInstrMem w) []

/-- The COND register holds one of the three one-hot flags. -/
def condOK (s : VMState) : Prop :=
  s.registers R_COND = FL_POS ∨ s.registers R_COND = FL_ZRO
    ∨ s.registers R_COND = FL_NEG

/-- A state about to execute RET (`0xC1C0`, JMP with baseR = R7 in
bits 8..6) with distinct values in R6 and R7. -/
def jmpRetState : VMState :=
  { memory := singleInstrMem 0xC1C0
  , registers := fun i =>
      if i = 6 then 0x1111 else if i = 7 then 0x2222
      else if i = R_PC then 0x3000 else if i = R_COND then FL_ZRO else 0
  , input := []
  , charOutput := []
  , run := true
  , aborted := false }

/-- A state about to execute `STR R1, R0, #0` (`0x7200`, source
register R1 in bits 11..9, base R0 in bits 8..6) with distinct values
in R1 and R2 and the store target in R0. -/
def strState : VMState :=
  { memory := singleInstrMem 0x7200
  , registers := fun i =>
      if i = 0 then 0x4000 else if i = 1 then 0xAAAA else if i = 2 then 0xBBBB
      else if i = R_PC then 0x3000 else if i = R_COND then FL_ZRO else 0
  , input := []
  , charOutput := []
  , run := true
  , aborted := false }

theorem setReg_apply (regs : Nat → Nat) (r v i : Nat) :
    setReg regs r v i = if i = r then v % 65536 else regs i := rfl

theorem cond_flag_of_mem (v : Nat) :
    cond_flag_of v = FL_POS ∨ cond_flag_of v = FL_ZRO ∨ cond_flag_of v = FL_NEG := by
  unfold cond_flag_of
  split_ifs <;> simp

theorem cond_flag_of_lt (v : Nat) : cond_flag_of v < 65536 := by
  unfold cond_flag_of FL_POS FL_ZRO FL_NEG
  split_ifs <;> norm_num

theorem update_cond_flag_apply (regs : Nat → Nat) (r i : Nat) :
    update_cond_flag regs r i
      = if i = R_COND then cond_flag_of (regs r) else regs i := by
  unfold update_cond_flag
  rw [setReg_apply]
  rcases eq_or_ne i R_COND with h | h <;>
    simp [h, Nat.mod_eq_of_lt (cond_flag_of_lt (regs r))]

/-- C1.  The sign-extension primitive is broken: the source line
`value |= (0xFFFF < bit_count);` compares instead of shifting, so for
the 5-bit value 0x10 (whose bit 4 — the sign bit — is set) the result
is 0x10 itself: bits 5..15 are all zero instead of replicating bit 4.
The spec-faithful primitive would return 0xFFF0. -/
theorem sign_extend_bits_identity_on_negative :
    sign_extend_bits 5 0x10 = 0x10
      ∧ (0x10 >>> 4) &&& 1 = 1
      ∧ sign_extend_bits 5 0x10 >>> 5 = 0
      ∧ spec_sext 5 0x10 = 0xFFF0
      ∧ sign_extend_bits 5 0x10 ≠ spec_sext 5 0x10
      ∧ sign_extend_bits 9 0x1F5 = 0x1F5
      ∧ sign_extend_bits 9 0x1F5 >>> 9 = 0 := by
  decide

/-- C2.  The loader never byte-swaps the ORIGIN word: on a
little-endian host the image bytes `30 00 F0 25` yield origin 0x0030,
so the HALT word lands at 0x0030 (byte-swapped to 0xF025) and
memory[0x3000] stays 0. -/
theorem read_image_file_origin_not_swapped :
    read_image_file zeroMem [0x30, 0x00, 0xF0, 0x25] 0x3000 = 0
      ∧ read_image_file zeroMem [0x30, 0x00, 0xF0, 0x25] 0x30 = 0xF025 := by
  decide

/-- C3.  Executing the HALT trap (word 0xF025) leaves `run` set, emits
nothing, and the loop proceeds to the next instruction: the `TRAP_HALT`
case in the source is an empty `break`. -/
theorem halt_trap_does_not_stop_loop :
    (step (singleInstrState 0xF025)).run = true
      ∧ (step (singleInstrState 0xF025)).aborted = false
      ∧ (step (singleInstrState 0xF025)).charOutput = []
      ∧ (step (singleInstrState 0xF025)).registers R_PC = 0x3001
      ∧ (stepN 2 (initState (singleInstrMem 0xF025) [])).run = true := by
  decide

/-- C4.  RTI (0x8000), the reserved opcode (0xD000), and a TRAP with
an unknown vector (0xF0FF) are all silent no-ops: `run` stays set, no
abort fires, and PC moves to the next instruction. -/
theorem illegal_ops_do_not_abort :
    ((step (singleInstrState 0x8000)).run = true
      ∧ (step (singleInstrState 0x8000)).aborted = false
      ∧ (step (singleInstrState 0x8000)).registers R_PC = 0x3001)
    ∧ ((step (singleInstrState 0xD000)).run = true
      ∧ (step (singleInstrState 0xD000)).aborted = false
      ∧ (step (singleInstrState 0xD000)).registers R_PC = 0x3001)
    ∧ ((step (singleInstrState 0xF0FF)).run = true
      ∧ (step (singleInstrState 0xF0FF)).aborted = false
      ∧ (step (singleInstrState 0xF0FF)).registers R_PC = 0x3001) := by
  decide

/-- C5.  The trap vector is masked with 0x1FF, not 0xFF: for the
instruction 0xF125 (bit 8 set) the dispatch value is 0x125, not the
8-bit vector 0x25; concretely, a GETC request written as 0xF120 is
silently ignored (R0 keeps its value and no input is consumed). -/
theorem trap_vector_masks_nine_bits :
    trap_code_of 0xF125 = 0x125
      ∧ 0xF125 &&& 0xFF = 0x25
      ∧ trap_code_of 0xF125 ≠ 0xF125 &&& 0xFF
      ∧ (step (initState (singleInstrMem 0xF120) [65])).registers R_R0 = 0
      ∧ (step (initState (singleInstrMem 0xF120) [65])).input = [65] := by
  decide

/-- C6.  Operand decoding uses the wrong fields: RET (0xC1C0, base
register R7 in bits 8..6) jumps to the contents of R6, because JMP
shifts by 5; and `STR R1, R0, #0` (0x7200, source register R1 in bits
11..9) stores the contents of R2, because STR shifts by 8. -/
theorem str_jmp_decode_wrong_fields :
    (step jmpRetState).registers R_PC = 0x1111
      ∧ jmpRetState.registers 6 = 0x1111
      ∧ jmpRetState.registers 7 = 0x2222
      ∧ (step jmpRetState).registers R_PC ≠ jmpRetState.registers 7
      ∧ (step strState).memory 0x4000 = 0xBBBB
      ∧ strState.registers 1 = 0xAAAA
      ∧ strState.registers 2 = 0xBBBB
      ∧ (step strState).memory 0x4000 ≠ strState.registers 1 := by
  decide

theorem fetch_registers_ne (s : VMState) (i : Nat) (h : i ≠ R_PC) :
    (fetch s).2.registers i = s.registers i := by
  show setReg s.registers R_PC (s.registers R_PC + 1) i = s.registers i
  rw [setReg_apply]
  simp [h]

/-- C7.  Reading `MR_KBSR` with no pending key returns 0 and leaves
`MR_KBDR` untouched; with a pending key it returns 0x8000 and stores
the consumed character into `MR_KBDR`; reading any other address
returns the cell unchanged, without touching memory or the input
stream. -/
theorem memory_read_kbsr_spec :
    (∀ mem : Nat → Nat,
      (memory_read mem [] MR_KBSR).1 = 0
        ∧ (memory_read mem [] MR_KBSR).2.1 MR_KBDR = mem MR_KBDR
        ∧ (memory_read mem [] MR_KBSR).2.2 = [])
    ∧ (∀ (mem : Nat → Nat) (c : Nat) (rest : List Nat), c < 65536 →
      (memory_read mem (c :: rest) MR_KBSR).1 = 0x8000
        ∧ (memory_read mem (c :: rest) MR_KBSR).2.1 MR_KBDR = c
        ∧ (memory_read mem (c :: rest) MR_KBSR).2.2 = rest)
    ∧ (∀ (mem : Nat → Nat) (input : List Nat) (addr : Nat),
      addr < 65536 → addr ≠ MR_KBSR →
      memory_read mem input addr = (mem addr, mem, input)) := by
  refine ⟨?_, ?_, ?_⟩
  · intro mem
    simp [memory_read, check_keypress, getchar, memory_write, MR_KBSR, MR_KBDR]
  · intro mem c rest hc
    simp [memory_read, check_keypress, getchar, memory_write, MR_KBSR, MR_KBDR,
      Nat.mod_eq_of_lt hc]
  · intro mem input addr h1 h2
    unfold memory_read
    rw [Nat.mod_eq_of_lt h1]
    simp [h2]

theorem memory_read_kbsr_spec_witness :
    (memory_read zeroMem [65] MR_KBSR).1 = 0x8000
      ∧ (memory_read zeroMem [65] MR_KBSR).2.1 MR_KBDR = 65
      ∧ (memory_read zeroMem [65] MR_KBSR).2.2 = [] :=
  memory_read_kbsr_spec.2.1 zeroMem 65 [] (by norm_num)

/-- C10.  ST, STI and STR leave the whole general register file and
COND exactly as they were before the instruction: only the PC
increment of the fetch touches the register array. -/
theorem stores_preserve_register_file (s : VMState) (i : Nat)
    (hop : (fetch s).1 >>> 12 = 3 ∨ (fetch s).1 >>> 12 = 11
      ∨ (fetch s).1 >>> 12 = 7)
    (hi : i ≤ 7 ∨ i = R_COND) :
    (step s).registers i = s.registers i := by
  have hi8 : i ≠ R_PC := by
    unfold R_PC
    unfold R_COND at hi
    omega
  rcases hop with h | h | h <;>
    · unfold step execute
      rw [h]
      norm_num
      exact fetch_registers_ne s i hi8

theorem stores_preserve_register_file_witness :
    (step (singleInstrState 0x3005)).registers 0
      = (singleInstrState 0x3005).registers 0 :=
  stores_preserve_register_file (singleInstrState 0x3005) 0
    (Or.inl (by decide)) (Or.inl (by norm_num))

theorem memory_write_apply (mem : Nat → Nat) (d a i : Nat) :
    memory_write mem d a i = if i = a % 65536 then d % 65536 else mem i := rfl

theorem memory_read_congr (mem : Nat → Nat) (inp : List Nat) (a b : Nat)
    (h : a % 65536 = b % 65536) :
    memory_read mem inp a = memory_read mem inp b := by
  unfold memory_read
  rw [h]

theorem fetch_pc (s : VMState) :
    (fetch s).2.registers R_PC = (s.registers R_PC + 1) % 65536 := by
  show setReg s.registers R_PC (s.registers R_PC + 1) R_PC = _
  rw [setReg_apply]
  simp

theorem dr_ne_cond (x : Nat) : x &&& 0x7 ≠ R_COND := by
  have := Nat.and_le_right (n := x) (m := 7)
  unfold R_COND
  omega

theorem dr_ne_pc (x : Nat) : x &&& 0x7 ≠ R_PC := by
  have := Nat.and_le_right (n := x) (m := 7)
  unfold R_PC
  omega

theorem execBR_taken_pc (instr : Nat) (s : VMState)
    (h : ((instr >>> 9) &&& 0x7) &&& s.registers R_COND ≠ 0) :
    (execBR instr s).registers R_PC
      = (s.registers R_PC + sign_extend_bits 9 (instr &&& 0x1FF)) % 65536 := by
  simp only [execBR]
  rw [if_pos h]
  simp [setReg_apply]

theorem execBR_untaken_pc (instr : Nat) (s : VMState)
    (h : ¬ ((instr >>> 9) &&& 0x7) &&& s.registers R_COND ≠ 0) :
    (execBR instr s).registers R_PC = s.registers R_PC := by
  simp only [execBR]
  rw [if_neg h]

theorem execJSR_r7 (instr : Nat) (s : VMState) :
    (execJSR instr s).registers R_R7 = s.registers R_PC % 65536 := by
  simp only [execJSR]
  split_ifs <;> simp [setReg_apply, R_R7, R_PC]

theorem execJSR_pc_offset (instr : Nat) (s : VMState)
    (h : (instr >>> 11) &&& 0x1 = 1) :
    (execJSR instr s).registers R_PC
      = (s.registers R_PC % 65536 + sign_extend_bits 11 (instr &&& 0x7FF)) % 65536 := by
  simp only [execJSR]
  rw [if_pos h]
  simp [setReg_apply, R_R7, R_PC]

theorem execTRAP_r7 (instr : Nat) (s : VMState) :
    (execTRAP instr s).registers R_R7 = s.registers R_PC % 65536 := by
  simp only [execTRAP]
  split_ifs <;>
    simp [update_cond_flag_apply, setReg_apply, R_R7, R_R0, R_COND, R_PC]

theorem execST_mem (instr : Nat) (s : VMState) :
    (execST instr s).memory
        ((s.registers R_PC + sign_extend_bits 9 (instr &&& 0x1FF)) % 65536)
      = s.registers ((instr >>> 9) &&& 0x7) % 65536 := by
  simp only [execST]
  rw [memory_write_apply]
  simp

theorem execLEA_dr (instr : Nat) (s : VMState) :
    (execLEA instr s).registers ((instr >>> 9) &&& 0x7)
      = (s.registers R_PC + sign_extend_bits 9 (instr &&& 0x1FF)) % 65536 := by
  simp only [execLEA]
  rw [update_cond_flag_apply]
  simp [dr_ne_cond, setReg_apply]

theorem execLD_dr (instr : Nat) (s : VMState) :
    (execLD instr s).registers ((instr >>> 9) &&& 0x7)
      = (memory_read s.memory s.input
          (s.registers R_PC + sign_extend_bits 9 (instr &&& 0x1FF))).1 % 65536 := by
  simp only [execLD]
  rw [update_cond_flag_apply]
  simp [dr_ne_cond, setReg_apply]

theorem execLDI_dr (instr : Nat) (s : VMState) :
    (execLDI instr s).registers ((instr >>> 9) &&& 0x7)
      = (memory_read
          (memory_read s.memory s.input
            (s.registers R_PC + sign_extend_bits 9 (instr &&& 0x1FF))).2.1
          (memory_read s.memory s.input
            (s.registers R_PC + sign_extend_bits 9 (instr &&& 0x1FF))).2.2
          (memory_read s.memory s.input
            (s.registers R_PC + sign_extend_bits 9 (instr &&& 0x1FF))).1).1 % 65536 := by
  simp only [execLDI]
  rw [update_cond_flag_apply]
  simp [dr_ne_cond, setReg_apply]

theorem execSTI_mem (instr : Nat) (s : VMState) :
    (execSTI instr s).memory
        ((memory_read s.memory s.input
          (s.registers R_PC + sign_extend_bits 9 (instr &&& 0x1FF))).1 % 65536)
      = s.registers ((instr >>> 9) &&& 0x7) % 65536 := by
  simp only [execSTI]
  rw [memory_write_apply]
  simp

/-- C9.  Fetch advances PC to (PC + 1) mod 2^16, and every PC-relative
quantity is computed from that post-increment value: the taken-branch
target of BR, the JSR target and the PC saved into R7 by JSR/JSRR and
TRAP, the effective addresses of LD, LDI (outer), ST and STI (outer),
and the value produced by LEA.  Offsets appear through the
(mis-implemented) `sign_extend_bits`, exactly as the code computes. -/
theorem pc_post_increment_spec :
    (∀ s : VMState,
      (fetch s).2.registers R_PC = (s.registers R_PC + 1) % 65536)
    ∧ (∀ s : VMState, (fetch s).1 >>> 12 = 0 →
        (((fetch s).1 >>> 9) &&& 0x7) &&& s.registers R_COND ≠ 0 →
        (step s).registers R_PC
          = (s.registers R_PC + 1
              + sign_extend_bits 9 ((fetch s).1 &&& 0x1FF)) % 65536)
    ∧ (∀ s : VMState, (fetch s).1 >>> 12 = 4 → ((fetch s).1 >>> 11) &&& 0x1 = 1 →
        (step s).registers R_PC
          = (s.registers R_PC + 1
              + sign_extend_bits 11 ((fetch s).1 &&& 0x7FF)) % 65536)
    ∧ (∀ s : VMState, (fetch s).1 >>> 12 = 4 →
        (step s).registers R_R7 = (s.registers R_PC + 1) % 65536)
    ∧ (∀ s : VMState, (fetch s).1 >>> 12 = 15 →
        (step s).registers R_R7 = (s.registers R_PC + 1) % 65536)
    ∧ (∀ s : VMState, (fetch s).1 >>> 12 = 3 →
        (step s).memory
            ((s.registers R_PC + 1
              + sign_extend_bits 9 ((fetch s).1 &&& 0x1FF)) % 65536)
          = s.registers (((fetch s).1 >>> 9) &&& 0x7) % 65536)
    ∧ (∀ s : VMState, (fetch s).1 >>> 12 = 14 →
        (step s).registers (((fetch s).1 >>> 9) &&& 0x7)
          = (s.registers R_PC + 1
              + sign_extend_bits 9 ((fetch s).1 &&& 0x1FF)) % 65536)
    ∧ (∀ s : VMState, (fetch s).1 >>> 12 = 2 →
        (step s).registers (((fetch s).1 >>> 9) &&& 0x7)
          = (memory_read (fetch s).2.memory (fetch s).2.input
              (s.registers R_PC + 1
                + sign_extend_bits 9 ((fetch s).1 &&& 0x1FF))).1 % 65536)
    ∧ (∀ s : VMState, (fetch s).1 >>> 12 = 10 →
        (step s).registers (((fetch s).1 >>> 9) &&& 0x7)
          = (memory_read
              (memory_read (fetch s).2.memory (fetch s).2.input
                (s.registers R_PC + 1
                  + sign_extend_bits 9 ((fetch s).1 &&& 0x1FF))).2.1
              (memory_read (fetch s).2.memory (fetch s).2.input
                (s.registers R_PC + 1
                  + sign_extend_bits 9 ((fetch s).1 &&& 0x1FF))).2.2
              (memory_read (fetch s).2.memory (fetch s).2.input
                (s.registers R_PC + 1
                  + sign_extend_bits 9 ((fetch s).1 &&& 0x1FF))).1).1 % 65536)
    ∧ (∀ s : VMState, (fetch s).1 >>> 12 = 11 →
        (step s).memory
            ((memory_read (fetch s).2.memory (fetch s).2.input
              (s.registers R_PC + 1
                + sign_extend_bits 9 ((fetch s).1 &&& 0x1FF))).1 % 65536)
          = s.registers (((fetch s).1 >>> 9) &&& 0x7) % 65536) := by
  refine ⟨fetch_pc, ?_, ?_, ?_, ?_, ?_, ?_, ?_, ?_, ?_⟩
  · intro s h ht
    have ht' : (((fetch s).1 >>> 9) &&& 0x7) &&& (fetch s).2.registers R_COND ≠ 0 := by
      rw [fetch_registers_ne s R_COND (by decide)]
      exact ht
    simp only [step, execute]
    rw [h]
    norm_num
    rw [execBR_taken_pc _ _ ht', fetch_pc]
    omega
  · intro s h hf
    simp only [step, execute]
    rw [h]
    norm_num
    rw [execJSR_pc_offset _ _ hf, fetch_pc]
    omega
  · intro s h
    simp only [step, execute]
    rw [h]
    norm_num
    rw [execJSR_r7, fetch_pc]
    omega
  · intro s h
    simp only [step, execute]
    rw [h]
    norm_num
    rw [execTRAP_r7, fetch_pc]
    omega
  · intro s h
    simp only [step, execute]
    rw [h]
    norm_num
    have hst := execST_mem (fetch s).1 (fetch s).2
    rw [fetch_pc, fetch_registers_ne s _ (dr_ne_pc _)] at hst
    rw [show ((s.registers R_PC + 1) % 65536
          + sign_extend_bits 9 ((fetch s).1 &&& 0x1FF)) % 65536
        = (s.registers R_PC + 1
            + sign_extend_bits 9 ((fetch s).1 &&& 0x1FF)) % 65536 from by omega] at hst
    exact hst
  · intro s h
    simp only [step, execute]
    rw [h]
    norm_num
    rw [execLEA_dr, fetch_pc]
    omega
  · intro s h
    simp only [step, execute]
    rw [h]
    norm_num
    rw [execLD_dr, fetch_pc,
      memory_read_congr _ _ _
        (s.registers R_PC + 1 + sign_extend_bits 9 ((fetch s).1 &&& 0x1FF))
        (by omega)]
  · intro s h
    simp only [step, execute]
    rw [h]
    norm_num
    rw [execLDI_dr, fetch_pc,
      memory_read_congr (fetch s).2.memory (fetch s).2.input
        ((s.registers R_PC + 1) % 65536 + sign_extend_bits 9 ((fetch s).1 &&& 0x1FF))
        (s.registers R_PC + 1 + sign_extend_bits 9 ((fetch s).1 &&& 0x1FF))
        (by omega)]
  · intro s h
    simp only [step, execute]
    rw [h]
    norm_num
    have hsti := execSTI_mem (fetch s).1 (fetch s).2
    rw [fetch_pc, fetch_registers_ne s _ (dr_ne_pc _)] at hsti
    rw [memory_read_congr _ _ _
        (s.registers R_PC + 1 + sign_extend_bits 9 ((fetch s).1 &&& 0x1FF))
        (by omega)] at hsti
    exact hsti

theorem pc_post_increment_spec_witness :
    (step (singleInstrState 0x0E05)).registers R_PC
      = ((singleInstrState 0x0E05).registers R_PC + 1
          + sign_extend_bits 9 ((fetch (singleInstrState 0x0E05)).1 &&& 0x1FF)) % 65536 :=
  pc_post_increment_spec.2.1 (singleInstrState 0x0E05) (by decide) (by decide)

theorem update_cond_matches (regs : Nat → Nat) (r : Nat) (h : r ≠ R_COND) :
    update_cond_flag regs r R_COND = cond_flag_of (update_cond_flag regs r r) := by
  rw [update_cond_flag_apply, update_cond_flag_apply]
  simp [h]

theorem execADD_cond (instr : Nat) (s : VMState) :
    (execADD instr s).registers R_COND
      = cond_flag_of ((execADD instr s).registers ((instr >>> 9) &&& 0x7)) := by
  simp only [execADD]
  split_ifs <;> exact update_cond_matches _ _ (dr_ne_cond _)

theorem execAND_cond (instr : Nat) (s : VMState) :
    (execAND instr s).registers R_COND
      = cond_flag_of ((execAND instr s).registers ((instr >>> 9) &&& 0x7)) := by
  simp only [execAND]
  split_ifs <;> exact update_cond_matches _ _ (dr_ne_cond _)

theorem execNOT_cond (instr : Nat) (s : VMState) :
    (execNOT instr s).registers R_COND
      = cond_flag_of ((execNOT instr s).registers ((instr >>> 9) &&& 0x7)) := by
  simp only [execNOT]
  exact update_cond_matches _ _ (dr_ne_cond _)

theorem execLD_cond (instr : Nat) (s : VMState) :
    (execLD instr s).registers R_COND
      = cond_flag_of ((execLD instr s).registers ((instr >>> 9) &&& 0x7)) := by
  simp only [execLD]
  exact update_cond_matches _ _ (dr_ne_cond _)

theorem execLDI_cond (instr : Nat) (s : VMState) :
    (execLDI instr s).registers R_COND
      = cond_flag_of ((execLDI instr s).registers ((instr >>> 9) &&& 0x7)) := by
  simp only [execLDI]
  exact update_cond_matches _ _ (dr_ne_cond _)

theorem execLDR_cond (instr : Nat) (s : VMState) :
    (execLDR instr s).registers R_COND
      = cond_flag_of ((execLDR instr s).registers ((instr >>> 9) &&& 0x7)) := by
  simp only [execLDR]
  exact update_cond_matches _ _ (dr_ne_cond _)

theorem execLEA_cond (instr : Nat) (s : VMState) :
    (execLEA instr s).registers R_COND
      = cond_flag_of ((execLEA instr s).registers ((instr >>> 9) &&& 0x7)) := by
  simp only [execLEA]
  exact update_cond_matches _ _ (dr_ne_cond _)

theorem execBR_cond (instr : Nat) (s : VMState) :
    (execBR instr s).registers R_COND = s.registers R_COND := by
  simp only [execBR]
  split_ifs <;> simp [setReg_apply, R_COND, R_PC]

theorem execJMP_cond (instr : Nat) (s : VMState) :
    (execJMP instr s).registers R_COND = s.registers R_COND := by
  simp only [execJMP]
  simp [setReg_apply, R_COND, R_PC]

theorem execJSR_cond (instr : Nat) (s : VMState) :
    (execJSR instr s).registers R_COND = s.registers R_COND := by
  simp only [execJSR]
  split_ifs <;> simp [setReg_apply, R_COND, R_PC, R_R7]

theorem execST_cond (instr : Nat) (s : VMState) :
    (execST instr s).registers R_COND = s.registers R_COND := rfl

theorem execSTI_cond (instr : Nat) (s : VMState) :
    (execSTI instr s).registers R_COND = s.registers R_COND := rfl

theorem execSTR_cond (instr : Nat) (s : VMState) :
    (execSTR instr s).registers R_COND = s.registers R_COND := rfl

theorem execRES_cond (instr : Nat) (s : VMState) :
    (execRES instr s).registers R_COND = s.registers R_COND := rfl

theorem execRTI_cond (instr : Nat) (s : VMState) :
    (execRTI instr s).registers R_COND = s.registers R_COND := rfl

theorem execTRAP_cond_getc (instr : Nat) (s : VMState)
    (h : trap_code_of instr = 0x20) :
    (execTRAP instr s).registers R_COND
      = cond_flag_of ((execTRAP instr s).registers R_R0) := by
  simp only [execTRAP]
  rw [if_pos h]
  exact update_cond_matches _ _ (by decide)

theorem execTRAP_cond_other (instr : Nat) (s : VMState)
    (h : trap_code_of instr ≠ 0x20) :
    (execTRAP instr s).registers R_COND = s.registers R_COND := by
  simp only [execTRAP]
  rw [if_neg h]
  split_ifs <;> simp [setReg_apply, R_COND, R_R7]

theorem execute_default (instr : Nat) (s : VMState) (h : 16 ≤ instr >>> 12) :
    execute instr s = { s with run := false, aborted := true } := by
  simp only [execute]
  iterate 16 rw [if_neg (by omega)]

theorem execute_cond_cases (instr : Nat) (s : VMState) :
    (execute instr s).registers R_COND = s.registers R_COND
      ∨ ∃ v, (execute instr s).registers R_COND = cond_flag_of v := by
  have hcases : instr >>> 12 = 0 ∨ instr >>> 12 = 1 ∨ instr >>> 12 = 2
      ∨ instr >>> 12 = 3 ∨ instr >>> 12 = 4 ∨ instr >>> 12 = 5
      ∨ instr >>> 12 = 6 ∨ instr >>> 12 = 7 ∨ instr >>> 12 = 8
      ∨ instr >>> 12 = 9 ∨ instr >>> 12 = 10 ∨ instr >>> 12 = 11
      ∨ instr >>> 12 = 12 ∨ instr >>> 12 = 13 ∨ instr >>> 12 = 14
      ∨ instr >>> 12 = 15 ∨ 16 ≤ instr >>> 12 := by omega
  rcases hcases with h|h|h|h|h|h|h|h|h|h|h|h|h|h|h|h|h
  · simp only [execute]
    rw [h]
    norm_num
    exact Or.inl (execBR_cond _ _)
  · simp only [execute]
    rw [h]
    norm_num
    exact Or.inr ⟨_, execADD_cond _ _⟩
  · simp only [execute]
    rw [h]
    norm_num
    exact Or.inr ⟨_, execLD_cond _ _⟩
  · simp only [execute]
    rw [h]
    norm_num
    exact Or.inl (execST_cond _ _)
  · simp only [execute]
    rw [h]
    norm_num
    exact Or.inl (execJSR_cond _ _)
  · simp only [execute]
    rw [h]
    norm_num
    exact Or.inr ⟨_, execAND_cond _ _⟩
  · simp only [execute]
    rw [h]
    norm_num
    exact Or.inr ⟨_, execLDR_cond _ _⟩
  · simp only [execute]
    rw [h]
    norm_num
    exact Or.inl (execSTR_cond _ _)
  · simp only [execute]
    rw [h]
    norm_num
    exact Or.inl (execRTI_cond _ _)
  · simp only [execute]
    rw [h]
    norm_num
    exact Or.inr ⟨_, execNOT_cond _ _⟩
  · simp only [execute]
    rw [h]
    norm_num
    exact Or.inr ⟨_, execLDI_cond _ _⟩
  · simp only [execute]
    rw [h]
    norm_num
    exact Or.inl (execSTI_cond _ _)
  · simp only [execute]
    rw [h]
    norm_num
    exact Or.inl (execJMP_cond _ _)
  · simp only [execute]
    rw [h]
    norm_num
    exact Or.inl (execRES_cond _ _)
  · simp only [execute]
    rw [h]
    norm_num
    exact Or.inr ⟨_, execLEA_cond _ _⟩
  · simp only [execute]
    rw [h]
    norm_num
    rcases eq_or_ne (trap_code_of instr) 0x20 with hg | hg
    · exact Or.inr ⟨_, execTRAP_cond_getc _ _ hg⟩
    · exact Or.inl (execTRAP_cond_other _ _ hg)
  · rw [execute_default _ _ h]
    exact Or.inl rfl

theorem step_condOK (s : VMState) (hs : condOK s) : condOK (step s) := by
  have h1 : (fetch s).2.registers R_COND = s.registers R_COND :=
    fetch_registers_ne s R_COND (by decide)
  rcases execute_cond_cases (fetch s).1 (fetch s).2 with he | ⟨v, hv⟩
  · unfold condOK at hs ⊢
    show (execute (fetch s).1 (fetch s).2).registers R_COND = FL_POS
      ∨ (execute (fetch s).1 (fetch s).2).registers R_COND = FL_ZRO
      ∨ (execute (fetch s).1 (fetch s).2).registers R_COND = FL_NEG
    rw [he, h1]
    exact hs
  · unfold condOK
    show (execute (fetch s).1 (fetch s).2).registers R_COND = FL_POS
      ∨ (execute (fetch s).1 (fetch s).2).registers R_COND = FL_ZRO
      ∨ (execute (fetch s).1 (fetch s).2).registers R_COND = FL_NEG
    rw [hv]
    exact cond_flag_of_mem v

theorem stepN_condOK (n : Nat) (s : VMState) (hs : condOK s) :
    condOK (stepN n s) := by
  induction n generalizing s with
  | zero => exact hs
  | succ n ih =>
    show condOK (stepN n (loop_step s))
    apply ih
    unfold loop_step
    split_ifs with h
    · exact step_condOK s hs
    · exact hs

/-- C8 (amended).  In every state reachable from initialization, COND
holds exactly one of the flags {POS, ZRO, NEG}; after every
register-writing computation (ADD, AND, NOT, LD, LDI, LDR, LEA and
TRAP GETC), COND reflects the sign of the destination value; but the
linkage writes of R7 by JSR/JSRR and by the other TRAP vectors leave
COND untouched. -/
theorem cond_flag_invariant_amended :
    (∀ (mem : Nat → Nat) (input : List Nat) (n : Nat),
        condOK (stepN n (initState mem input)))
    ∧ (∀ s : VMState,
        ((fetch s).1 >>> 12 = 1 ∨ (fetch s).1 >>> 12 = 5 ∨ (fetch s).1 >>> 12 = 9
          ∨ (fetch s).1 >>> 12 = 2 ∨ (fetch s).1 >>> 12 = 10
          ∨ (fetch s).1 >>> 12 = 6 ∨ (fetch s).1 >>> 12 = 14) →
        (step s).registers R_COND
          = cond_flag_of ((step s).registers (((fetch s).1 >>> 9) &&& 0x7)))
    ∧ (∀ s : VMState, (fetch s).1 >>> 12 = 15 →
        trap_code_of (fetch s).1 = 0x20 →
        (step s).registers R_COND = cond_flag_of ((step s).registers R_R0))
    ∧ (∀ s : VMState, (fetch s).1 >>> 12 = 4 →
        (step s).registers R_COND = s.registers R_COND)
    ∧ (∀ s : VMState, (fetch s).1 >>> 12 = 15 →
        trap_code_of (fetch s).1 ≠ 0x20 →
        (step s).registers R_COND = s.registers R_COND) := by
  refine ⟨?_, ?_, ?_, ?_, ?_⟩
  · intro mem input n
    apply stepN_condOK
    unfold condOK initState
    exact Or.inr (Or.inl rfl)
  · intro s hop
    rcases hop with h | h | h | h | h | h | h
    · simp only [step, execute]
      rw [h]
      norm_num
      exact execADD_cond _ _
    · simp only [step, execute]
      rw [h]
      norm_num
      exact execAND_cond _ _
    · simp only [step, execute]
      rw [h]
      norm_num
      exact execNOT_cond _ _
    · simp only [step, execute]
      rw [h]
      norm_num
      exact execLD_cond _ _
    · simp only [step, execute]
      rw [h]
      norm_num
      exact execLDI_cond _ _
    · simp only [step, execute]
      rw [h]
      norm_num
      exact execLDR_cond _ _
    · simp only [step, execute]
      rw [h]
      norm_num
      exact execLEA_cond _ _
  · intro s h hg
    simp only [step, execute]
    rw [h]
    norm_num
    exact execTRAP_cond_getc _ _ hg
  · intro s h
    simp only [step, execute]
    rw [h]
    norm_num
    rw [execJSR_cond]
    exact fetch_registers_ne s R_COND (by decide)
  · intro s h hg
    simp only [step, execute]
    rw [h]
    norm_num
    rw [execTRAP_cond_other _ _ hg]
    exact fetch_registers_ne s R_COND (by decide)

theorem cond_flag_invariant_amended_witness :
    (step (singleInstrState 0x102A)).registers R_COND
      = cond_flag_of ((step (singleInstrState 0x102A)).registers
          (((fetch (singleInstrState 0x102A)).1 >>> 9) &&& 0x7)) :=
  cond_flag_invariant_amended.2.1 (singleInstrState 0x102A) (Or.inl (by decide))

/-- C8 (counterexample).  The claim as stated is false: JSR (0x4800)
writes the post-increment PC 0x3001 into the general register R7 — a
nonzero value with bit 15 clear, so the claim demands COND = POS — yet
COND remains ZRO. -/
theorem jsr_breaks_cond_invariant :
    (step (singleInstrState 0x4800)).registers R_R7 = 0x3001
      ∧ (step (singleInstrState 0x4800)).registers R_R7
          ≠ (singleInstrState 0x4800).registers R_R7
      ∧ (step (singleInstrState 0x4800)).registers R_COND = FL_ZRO
      ∧ cond_flag_of ((step (singleInstrState 0x4800)).registers R_R7) = FL_POS
      ∧ (step (singleInstrState 0x4800)).registers R_COND
          ≠ cond_flag_of ((step (singleInstrState 0x4800)).registers R_R7) := by
  decide

end LC3
